import Mathlib

/-!
Verification of the selection-and-budget-allocation core of the ShortsSync
repository against its specification.

The Python modules are shallowly embedded as follows:

* `video_history.py` (the Ledger): the persisted JSON document, a dict from
  channel username to a list of entry dicts, is modelled as a total function
  `List Char → List HistoryEntry` (a missing key and an empty list are
  observationally identical for every operation of the class). Python strings
  holding usernames are modelled as `List Char` so that the `username[1:]`
  slicing of `'@'`-cleaning is a plain pattern match. File persistence
  (`_save_history`) is abstracted as always succeeding; `datetime.now()` is
  passed in as an explicit `now` argument.

* `youtube_uploader.py` (the Budget Manager and Batch Scheduler): only the
  current day's record of the quota file is modelled (`QuotaDay`), since every
  claim is about a single day with a single writer. Python float arithmetic
  (`0.05 * limit`, `effective_remaining / cost_per_upload`) is idealised as
  exact rational arithmetic, and `int(...)` on a float is truncation toward
  zero (`pyInt`). The external YouTube publish call inside `upload_video` is
  abstracted as an oracle `ℕ → Option String` giving, per batch position, the
  destination id on success or `none` on failure; authentication is assumed to
  have succeeded (out of scope per the spec). The unreachable branch of
  `_upload_immediately` in which Python would raise `IndexError` (indexing the
  just-truncated lists) is modelled as `Except.error "IndexError"`.

* `content_analyzer.py` (Scorer, Threshold Calculator, Selector): a TikTok
  item dict is flattened into `Video` (`stats.playCount` ↦ `views`,
  `video.duration` ↦ `duration`, `desc` ↦ `desc`). `createTime` is
  `Option ℤ`: `some t` when `int(video.get('createTime', 0))` evaluates to
  `t` (a missing key is `some 0`, the dict default), `none` when the stored
  value makes `int(...)` raise. The `random.uniform(0.1, 1.0)` draw of the
  degenerate-score fallback is passed in as an explicit parameter `rand : ℚ`
  (floats are rationals; its range is a hypothesis where a claim needs it).
  `math.log10` is `Real.logb 10`, so scores live in `ℝ`.
-/

namespace ShortsSync

/-! ## Ledger: `video_history.py` -/

/-- The fields of a scraped video dict that `VideoHistory` reads:
`video_data['id']`, `video_data.get('caption', '')` and the four metric
counters recorded in the history entry. -/
structure VideoData where
  id : String
  caption : String
  views : ℕ
  likes : ℕ
  comments : ℕ
  shares : ℕ
deriving DecidableEq

/-- One entry of a channel's history list, as appended by
`mark_video_uploaded` (video_history.py lines 149-160). -/
structure HistoryEntry where
  videoId : String
  title : String
  uploadDate : String
  youtubeId : Option String
  views : ℕ
  likes : ℕ
  comments : ℕ
  shares : ℕ
deriving DecidableEq

/-- The in-memory history dict `self.history`: channel username → list of
entries. A channel absent from the dict behaves exactly like one mapped to
`[]` in every method of the class, so the dict is modelled as a total
function. -/
def Histories : Type := List Char → List HistoryEntry

/-- The username cleaning done at the top of every `VideoHistory` method:
`if username.startswith('@'): username = username[1:]` — a single leading
`'@'` is removed. -/
def cleanUsername (username : List Char) : List Char :=
  match username with
  | [] => []
  | c :: rest => if c = '@' then rest else c :: rest

/-- `VideoHistory.is_video_uploaded` (lines 77-101): clean the username and
scan the channel's list for a matching `video_id`. -/
def isVideoUploaded (history : Histories) (username : List Char) (videoId : String) : Bool :=
  (history (cleanUsername username)).any (fun v => v.videoId == videoId)

/-- `VideoHistory.mark_video_uploaded` (lines 127-167): clean the username,
create the channel if missing, and unconditionally append a new entry — there
is no duplicate check. The returned `Bool` is the result of `_save_history`,
which is abstracted as succeeding. -/
def markVideoUploaded (history : Histories) (username : List Char) (videoData : VideoData)
    (youtubeId : Option String) (now : String) : Bool × Histories :=
  let u := cleanUsername username
  let entry : HistoryEntry :=
    { videoId := videoData.id
      title := videoData.caption.take 100
      uploadDate := now
      youtubeId := youtubeId
      views := videoData.views
      likes := videoData.likes
      comments := videoData.comments
      shares := videoData.shares }
  (true, fun c => if c = u then history c ++ [entry] else history c)

/-- `VideoHistory.get_channel_history` (lines 199-214). -/
def getChannelHistory (history : Histories) (username : List Char) : List HistoryEntry :=
  history (cleanUsername username)

/-- `VideoHistory.get_upload_count` (lines 216-231). -/
def getUploadCount (history : Histories) (username : List Char) : ℕ :=
  (history (cleanUsername username)).length

/-! ## Budget Manager: quota tracking in `youtube_uploader.py` -/

/-- The module-level `QUOTA_COSTS` dict (youtube_uploader.py lines 24-30),
as a partial map; call sites use `.get(op, default)`. -/
def QUOTA_COSTS (operation : String) : Option ℕ :=
  if operation = "videos.insert" then some 1600
  else if operation = "videos.list" then some 1
  else if operation = "videos.update" then some 50
  else if operation = "playlistItems.insert" then some 50
  else if operation = "channels.list" then some 1
  else none

/-- `self.daily_quota_limit` (line 49). -/
def dailyQuotaLimit : ℕ := 10000

/-- Today's record in the quota file: `used`, `remaining` and the per
operation `{count, cost}` breakdown (`operations` is a total function,
defaulting to `(0, 0)` for an operation never tracked). -/
structure QuotaDay where
  used : ℕ
  remaining : ℕ
  operations : String → ℕ × ℕ

/-- Python `int(x)` applied to a (here rational-valued) float: truncation
toward zero. -/
def pyInt (q : ℚ) : ℤ :=
  if 0 ≤ q then ⌊q⌋ else -⌊-q⌋

/-- `YouTubeUploader.track_api_usage` (lines 661-720) restricted to today's
entry: add `cost_per_op * count` to `used`, recompute
`remaining = max(0, limit - used)`, and bump the operation's breakdown. -/
def trackApiUsage (st : QuotaDay) (operation : String) (count : ℕ) : QuotaDay :=
  let costPerOp := (QUOTA_COSTS operation).getD 1
  let totalCost := costPerOp * count
  let used := st.used + totalCost
  { used := used
    remaining := ((dailyQuotaLimit : ℤ) - used).toNat
    operations := fun op =>
      if op = operation then ((st.operations op).1 + count, (st.operations op).2 + totalCost)
      else st.operations op }

/-- The `reserve_quota = self.daily_quota_limit * 0.05` held back from
publish-affordability checks (lines 450 and 755). -/
def reserveQuota : ℚ := (dailyQuotaLimit : ℚ) * 5 / 100

/-- `remaining_quota = self.daily_quota_limit - used_quota` (lines 447, 749);
an integer that may be negative. -/
def remainingQuota (st : QuotaDay) : ℤ :=
  (dailyQuotaLimit : ℤ) - st.used

/-- `effective_remaining = remaining_quota - reserve_quota`, the expression
recomputed at lines 451 and 756. -/
def effectiveRemaining (st : QuotaDay) : ℚ :=
  (remainingQuota st : ℚ) - reserveQuota

/-- `possible_uploads = int(effective_remaining / cost_per_upload)` with
`cost_per_upload = QUOTA_COSTS.get('videos.insert', 1600) = 1600`, the
expression recomputed at lines 455 and 760. -/
def possibleUploads (st : QuotaDay) : ℤ :=
  pyInt (effectiveRemaining st / 1600)

/-- `YouTubeUploader.check_quota_available` (lines 722-784) restricted to
today's entry. For `videos.insert` the 5% reserve is subtracted, and a
partially affordable batch (at least one unit affordable) still answers
`true`, "letting the caller handle the count". -/
def checkQuotaAvailable (st : QuotaDay) (operation : String) (count : ℕ) : Bool :=
  let costPerOp := (QUOTA_COSTS operation).getD 1
  let totalCost := costPerOp * count
  if operation = "videos.insert" then
    if (totalCost : ℚ) > effectiveRemaining st then
      decide (0 < possibleUploads st)
    else true
  else
    if (totalCost : ℤ) > remainingQuota st then false else true

/-! ## Batch dispatch: `_upload_immediately` and `upload_video` -/

/-- An element of `results["successful"]` (lines 492-496). -/
structure UploadSuccess where
  file : String
  videoId : String
  title : String
deriving DecidableEq

/-- An element of `results["failed"]` (lines 463-467, 478-482, 505-509). -/
structure UploadFailure where
  file : String
  title : String
  error : String
deriving DecidableEq

/-- The `results` dict of `_upload_immediately`. -/
structure UploadResults where
  successful : List UploadSuccess
  failed : List UploadFailure
deriving DecidableEq

/-- `YouTubeUploader.upload_video` (lines 212-275) reduced to its quota
behaviour: gate on `check_quota_available('videos.insert')` (count 1), then
perform the external insert — abstracted as `publishOutcome` — and on success
`track_api_usage('videos.insert')`. A failed or gated attempt consumes no
budget. -/
def uploadVideo (st : QuotaDay) (publishOutcome : Option String) : Option String × QuotaDay :=
  if checkQuotaAvailable st "videos.insert" 1 then
    match publishOutcome with
    | some videoId => (some videoId, trackApiUsage st "videos.insert" 1)
    | none => (none, st)
  else (none, st)

/-- The per-item loop of `_upload_immediately` (lines 485-509): each
`(file, caption)` pair is attempted with `upload_video`; a returned id goes to
`successful`, otherwise the item is recorded in `failed` with error
"Upload failed". The oracle is indexed by batch position. -/
def uploadLoop (oracle : ℕ → Option String) :
    List (String × String) → ℕ → QuotaDay → UploadResults × QuotaDay
  | [], _, st => (⟨[], []⟩, st)
  | (file, data) :: rest, i, st =>
    let attempt := uploadVideo st (oracle i)
    match attempt.1 with
    | some videoId =>
      let tail := uploadLoop oracle rest (i + 1) attempt.2
      ({ successful := ⟨file, videoId, data⟩ :: tail.1.successful, failed := tail.1.failed },
        tail.2)
    | none =>
      let tail := uploadLoop oracle rest (i + 1) attempt.2
      ({ successful := tail.1.successful, failed := ⟨file, data, "Upload failed"⟩ :: tail.1.failed },
        tail.2)

/-- `YouTubeUploader._upload_immediately` (lines 420-511). Video data dicts
are reduced to their captions. If the batch check fails, the affordable count
is recomputed; with none affordable every item is marked "Quota exceeded";
otherwise the lists are truncated to `possible_uploads` — after which the
Python loop `for i in range(possible_uploads, total_uploads)` indexes past the
truncated lists and raises `IndexError`, modelled as `Except.error`. -/
def uploadImmediately (st : QuotaDay) (videoFiles videoDataList : List String)
    (oracle : ℕ → Option String) : Except String (UploadResults × QuotaDay) :=
  if videoFiles.length ≠ videoDataList.length then .ok (⟨[], []⟩, st)
  else
    let totalUploads := videoFiles.length
    if checkQuotaAvailable st "videos.insert" totalUploads then
      .ok (uploadLoop oracle (videoFiles.zip videoDataList) 0 st)
    else
      let possible := possibleUploads st
      if possible ≤ 0 then
        .ok (⟨[], (videoFiles.zip videoDataList).map (fun p => ⟨p.1, p.2, "Quota exceeded"⟩)⟩, st)
      else
        if possible.toNat < totalUploads then .error "IndexError"
        else
          .ok (uploadLoop oracle
            ((videoFiles.take possible.toNat).zip (videoDataList.take possible.toNat)) 0 st)

/-! ## Scorer, Threshold Calculator, Selector: `content_analyzer.py` -/

/-- A scraped TikTok item, flattened from the nested dict: `desc`,
`video.duration`, `stats.playCount` / `diggCount` / `commentCount` /
`shareCount`, and `createTime` (see the module comment for the `Option`
convention). -/
structure Video where
  desc : String
  duration : ℚ
  views : ℕ
  likes : ℕ
  comments : ℕ
  shares : ℕ
  createTime : Option ℤ
deriving DecidableEq

/-- `ContentAnalyzer.calculate_engagement_score` (lines 243-301): the
degenerate regime (all four counters zero) scores by the clamped creation
time, or by the random draw `rand` when `int(createTime)` raises; with zero
views but some engagement the score is `0`; otherwise the normal regime
`0.4 * log10(views + 1) + 0.6 * ((likes + comments + shares) / views) * 10`. -/
noncomputable def calculateEngagementScore (video : Video) (rand : ℚ) : ℝ :=
  if video.views = 0 ∧ video.likes = 0 ∧ video.comments = 0 ∧ video.shares = 0 then
    match video.createTime with
    | some createTime => ((min 5 (max 0 ((createTime : ℚ) / 1000000000)) : ℚ) : ℝ)
    | none => (rand : ℝ)
  else if video.views = 0 then 0
  else
    let engagementRate : ℝ :=
      ((video.likes + video.comments + video.shares : ℕ) : ℝ) / (video.views : ℝ)
    let logViews : ℝ := Real.logb 10 ((video.views : ℝ) + 1)
    0.4 * logViews + 0.6 * engagementRate * 10

/-- The keys of `config.CONTENT_FILTERS` that the analyzer reads. -/
structure ContentFilters where
  minDuration : ℚ
  maxDuration : ℚ
  minViews : ℕ
  minEngagementRate : ℚ
  excludeHashtags : List String

/-- `config.CONTENT_FILTERS` (config.py lines 39-63). -/
def CONTENT_FILTERS : ContentFilters :=
  { minDuration := 3
    maxDuration := 60
    minViews := 1000
    minEngagementRate := 1 / 2
    excludeHashtags := ["#ad", "#sponsored", "#promotion"] }

/-- The `view_counts` list of `calculate_dynamic_view_threshold` (lines
349-351): per-video play counts with zeros filtered out. -/
def positiveViewCounts (videos : List Video) : List ℕ :=
  (videos.map (fun v => v.views)).filter (fun views => decide (0 < views))

/-- `view_counts.sort()` (line 357): the positive counts in ascending
order. -/
def sortedViewCounts (videos : List Video) : List ℕ :=
  (positiveViewCounts videos).mergeSort (fun a b => decide (a ≤ b))

/-- `avg_views = sum(view_counts) / len(view_counts)` (line 360). -/
def avgViewsOf (videos : List Video) : ℚ :=
  ((sortedViewCounts videos).sum : ℚ) / ((sortedViewCounts videos).length : ℚ)

/-- `median_views = view_counts[len(view_counts) // 2]` (line 361). -/
def medianViewsOf (videos : List Video) : ℕ :=
  (sortedViewCounts videos).getD ((sortedViewCounts videos).length / 2) 0

/-- `percentile_75 = view_counts[int(len(view_counts) * 0.75)]` (lines
364-365); `int(len * 0.75)` is `3 * len / 4` in natural division. -/
def p75ViewsOf (videos : List Video) : ℕ :=
  (sortedViewCounts videos).getD (3 * (sortedViewCounts videos).length / 4) 0

/-- The `channel_size` classification (lines 368-373). -/
inductive ChannelSize
  | small
  | medium
  | large
deriving DecidableEq

/-- `avg_views < 20000` → small, `< 100000` → medium, else large. -/
def channelSizeOf (avgViews : ℚ) : ChannelSize :=
  if avgViews < 20000 then .small else if avgViews < 100000 then .medium else .large

/-- The per-class `min_bound` (lines 379, 383, 387). -/
def minBoundOf : ChannelSize → ℕ
  | .small => 3000
  | .medium => 8000
  | .large => 15000

/-- The per-class `dynamic_threshold` before clamping (lines 378, 382,
386): `int(avg_views * 0.7)`, `int(median_views * 0.8)` or
`int(percentile_75 * 0.7)`. -/
def rawThresholdOf (videos : List Video) : ℤ :=
  match channelSizeOf (avgViewsOf videos) with
  | .small => pyInt (avgViewsOf videos * 7 / 10)
  | .medium => pyInt ((medianViewsOf videos : ℚ) * 8 / 10)
  | .large => pyInt ((p75ViewsOf videos : ℚ) * 7 / 10)

/-- `max_bound = 500000` (line 390). -/
def maxBound : ℕ := 500000

/-- `ContentAnalyzer.calculate_dynamic_view_threshold` (lines 330-401):
with no videos or no positive view counts fall back to the configured
`min_views`, otherwise `max(min_bound, min(dynamic_threshold, max_bound))`. -/
def calculateDynamicViewThreshold (videos : List Video) : ℕ :=
  if videos = [] then CONTENT_FILTERS.minViews
  else if positiveViewCounts videos = [] then CONTENT_FILTERS.minViews
  else
    (max (minBoundOf (channelSizeOf (avgViewsOf videos)) : ℤ)
      (min (rawThresholdOf videos) (maxBound : ℤ))).toNat

/-- Python `str.lower()`, character by character. -/
def pyLower (s : String) : String := s.map Char.toLower

/-- Python's `needle in haystack` substring test. -/
def containsSubstring (haystack needle : String) : Bool :=
  haystack.data.tails.any (fun t => needle.data.isPrefixOf t)

/-- The excluded-hashtag test of `filter_by_content_policy` (lines 443-445):
`any(tag.lower() in caption.lower() for tag in excluded_tags)`. -/
def hasExcludedHashtag (caption : String) : Bool :=
  CONTENT_FILTERS.excludeHashtags.any
    (fun tag => containsSubstring (pyLower caption) (pyLower tag))

open Classical in
/-- `ContentAnalyzer.filter_by_content_policy` (lines 403-453): keep a video
iff it passes, in order, the duration window, the dynamic view threshold, the
engagement-score floor and the excluded-hashtag test. -/
noncomputable def filterByContentPolicy (videos : List Video) (channelName : String)
    (rand : ℚ) : List Video :=
  if videos = [] then []
  else
    let dynamicViewThreshold := calculateDynamicViewThreshold videos
    videos.filter (fun v =>
      decide (¬(v.duration < CONTENT_FILTERS.minDuration ∨ CONTENT_FILTERS.maxDuration < v.duration))
      && decide (dynamicViewThreshold ≤ v.views)
      && !(decide (calculateEngagementScore v rand < (CONTENT_FILTERS.minEngagementRate : ℝ)))
      && !(hasExcludedHashtag v.desc))

open Classical in
/-- `ContentAnalyzer.rank_videos` (lines 303-328): stable sort by engagement
score, highest first (`rank` is the 1-based position in the result). -/
noncomputable def rankVideos (videos : List Video) (rand : ℚ) : List Video :=
  videos.mergeSort (fun a b =>
    decide (calculateEngagementScore b rand ≤ calculateEngagementScore a rand))

/-- `sorted(vs, key=lambda x: int(x.get('createTime', 0)), reverse=True)`
(lines 113-117 and 121-125), defined on lists whose creation times are all
usable. -/
def sortByCreateTimeDesc (videos : List Video) : List Video :=
  videos.mergeSort (fun a b => decide (b.createTime.getD 0 ≤ a.createTime.getD 0))

/-- Which stage of `select_top_videos` produced the candidate pool: the
strict content-policy pipeline, the duration + recency fallback (lines
100-118), the recency-only fallback (lines 120-126), or the exception-path
last resort `videos[:top_n]` (lines 127-131). Each stage is logged by the
code; returning it models that observability. -/
inductive SelectStage
  | strict
  | durationRecency
  | recencyOnly
  | lastResort
deriving DecidableEq

/-- The outcome of `select_top_videos`: the selected videos and the stage
that produced them. -/
structure SelectResult where
  selected : List Video
  stage : SelectStage

open Classical in
/-- The fallback cascade of `select_top_videos` (lines 93-131), producing the
list bound to `filtered_videos` together with its stage. A `sorted(...)` call
whose key `int(x.get('createTime', 0))` raises (some `createTime` is `none`)
aborts to the last-resort branch. -/
noncomputable def selectPool (videos : List Video) (channelName : String) (topN : ℕ)
    (rand : ℚ) : List Video × SelectStage :=
  let filtered := filterByContentPolicy videos channelName rand
  if filtered = [] then
    let durationFiltered := videos.filter (fun v => decide (3 ≤ v.duration ∧ v.duration ≤ 60))
    if durationFiltered = [] then
      if videos.all (fun v => v.createTime.isSome) then
        ((sortByCreateTimeDesc videos).take topN, .recencyOnly)
      else (videos.take topN, .lastResort)
    else
      if durationFiltered.all (fun v => v.createTime.isSome) then
        ((sortByCreateTimeDesc durationFiltered).take topN, .durationRecency)
      else (videos.take topN, .lastResort)
  else (filtered, .strict)

/-- `ContentAnalyzer.select_top_videos` (lines 77-155): empty input returns
nothing; otherwise the pool from the strict pipeline or its fallback cascade
is ranked by engagement score and truncated to
`ranked[:min(top_n, len(ranked))]`. -/
noncomputable def selectTopVideos (videos : List Video) (channelName : String) (topN : ℕ)
    (rand : ℚ) : SelectResult :=
  if videos = [] then ⟨[], .strict⟩
  else
    let pool := selectPool videos channelName topN rand
    ⟨(rankVideos pool.1 rand).take topN, pool.2⟩

/-! ## Definitions following the specification's words (for comparison) -/

/-- Modelled from the spec, section 4.2: the normal-regime formula
`0.4 * log10(views + 1) + 0.6 * ((likes + comments + shares) / max(views, 1)) * 10`
with the view divisor floored at 1. Named for comparison with
`calculateEngagementScore`, which the claim asserts it equals. -/
noncomputable def specNormalScore (video : Video) : ℝ :=
  0.4 * Real.logb 10 ((video.views : ℝ) + 1)
    + 0.6 * (((video.likes + video.comments + video.shares : ℕ) : ℝ) / max (video.views : ℝ) 1) * 10

/-- Modelled from the spec, section 4.2: the engagement rate
`(likes + comments + shares) / max(views, 1)`. -/
def specEngagementRate (video : Video) : ℚ :=
  ((video.likes + video.comments + video.shares : ℕ) : ℚ) / ((max video.views 1 : ℕ) : ℚ)

/-! ## Concrete fixtures used by counterexamples and witnesses -/

/-- A freshly loaded, empty history store. -/
def emptyHistories : Histories := fun _ => []

/-- A sample scraped video. -/
def sampleVideoData : VideoData :=
  { id := "7301", caption := "clip", views := 10, likes := 2, comments := 1, shares := 0 }

/-- A quota day with nothing used yet. -/
def freshQuotaDay : QuotaDay := ⟨0, 10000, fun _ => (0, 0)⟩

/-! ## Supporting lemmas -/

theorem cleanUsername_at_cons (u : List Char) : cleanUsername ('@' :: u) = u := by
  simp [cleanUsername]

theorem cleanUsername_eq_self (u : List Char) (hu : u.head? ≠ some '@') :
    cleanUsername u = u := by
  cases u with
  | nil => rfl
  | cons c rest =>
    have hc : c ≠ '@' := fun h => hu (by simp [h])
    simp [cleanUsername, hc]

/-! ## Claim 1 -/

/-- Claim C1, counterexample. Submitting the same `(channel, video_id)` to
`mark_video_uploaded` twice from an empty store: the second call also reports
success (the code has no `DuplicateEntry` outcome), and the stored entry
count for the channel becomes 2, not 1. -/
theorem claim1_counterexample :
    (markVideoUploaded
        (markVideoUploaded emptyHistories ['u'] sampleVideoData none "2026-01-01").2
        ['u'] sampleVideoData none "2026-01-01").1 = true
    ∧ getUploadCount
        (markVideoUploaded
          (markVideoUploaded emptyHistories ['u'] sampleVideoData none "2026-01-01").2
          ['u'] sampleVideoData none "2026-01-01").2 ['u'] = 2
    ∧ getUploadCount
        (markVideoUploaded
          (markVideoUploaded emptyHistories ['u'] sampleVideoData none "2026-01-01").2
          ['u'] sampleVideoData none "2026-01-01").2 ['u']
      ≠ getUploadCount emptyHistories ['u'] + 1 := by
  refine ⟨rfl, ?_, ?_⟩ <;> decide

/-- Claim C1, amended. `mark_video_uploaded` performs no duplicate check:
recording the same `(channel, video_id)` twice succeeds both times and the
channel's stored entry count increases by exactly 2, not 1; the idempotent
skip the spec describes is instead available to callers through
`is_video_uploaded`, which reports the video as uploaded after the first
record. -/
theorem claim1_record_appends_duplicate (history : Histories) (username : List Char)
    (videoData : VideoData) (youtubeId : Option String) (now : String) :
    (markVideoUploaded history username videoData youtubeId now).1 = true
    ∧ isVideoUploaded (markVideoUploaded history username videoData youtubeId now).2
        username videoData.id = true
    ∧ (markVideoUploaded (markVideoUploaded history username videoData youtubeId now).2
        username videoData youtubeId now).1 = true
    ∧ getUploadCount (markVideoUploaded (markVideoUploaded history username videoData youtubeId now).2
        username videoData youtubeId now).2 username
      = getUploadCount history username + 2 := by
  refine ⟨rfl, ?_, rfl, ?_⟩
  · simp [isVideoUploaded, markVideoUploaded]
  · simp [getUploadCount, markVideoUploaded]

/-! ## Claim 10 -/

/-- Claim C10, counterexample. The cleaning strips only a single leading
`'@'`, so for the username `u = "@x"` (which itself starts with `'@'`),
`'@' + u` and `u` key different channel records: an entry recorded under
`"@@x"` is not reported as uploaded when queried under `"@x"`. -/
theorem claim10_counterexample :
    cleanUsername ('@' :: ['@', 'x']) ≠ cleanUsername ['@', 'x']
    ∧ isVideoUploaded
        (markVideoUploaded emptyHistories ('@' :: ['@', 'x']) sampleVideoData none "2026-01-01").2
        ['@', 'x'] sampleVideoData.id = false := by
  refine ⟨?_, ?_⟩ <;> decide

/-- Claim C10, amended. Every history operation strips a single leading
`'@'` before keying; hence for every username `u` that does not itself begin
with `'@'`, the operation applied to `'@' + u` and to `u` observes and
mutates the same channel record, and an entry recorded under `'@' + u` is
reported as already uploaded when queried under `u`. -/
theorem claim10_username_cleaning (history : Histories) (u : List Char) (videoId : String)
    (videoData : VideoData) (youtubeId : Option String) (now : String)
    (hu : u.head? ≠ some '@') :
    cleanUsername ('@' :: u) = cleanUsername u
    ∧ isVideoUploaded history ('@' :: u) videoId = isVideoUploaded history u videoId
    ∧ getChannelHistory history ('@' :: u) = getChannelHistory history u
    ∧ getUploadCount history ('@' :: u) = getUploadCount history u
    ∧ (markVideoUploaded history ('@' :: u) videoData youtubeId now).2
        = (markVideoUploaded history u videoData youtubeId now).2
    ∧ isVideoUploaded (markVideoUploaded history ('@' :: u) videoData youtubeId now).2
        u videoData.id = true := by
  have hkey : cleanUsername ('@' :: u) = cleanUsername u := by
    rw [cleanUsername_at_cons, cleanUsername_eq_self u hu]
  refine ⟨hkey, ?_, ?_, ?_, ?_, ?_⟩
  · simp [isVideoUploaded, hkey]
  · simp [getChannelHistory, hkey]
  · simp [getUploadCount, hkey]
  · simp [markVideoUploaded, hkey]
  · simp [isVideoUploaded, markVideoUploaded, hkey]

/-- Claim C10, witness: the amended statement applied to the username
`"x"`, which does not begin with `'@'`. -/
theorem claim10_witness :
    cleanUsername ('@' :: ['x']) = cleanUsername ['x']
    ∧ isVideoUploaded emptyHistories ('@' :: ['x']) "7301"
        = isVideoUploaded emptyHistories ['x'] "7301"
    ∧ getChannelHistory emptyHistories ('@' :: ['x']) = getChannelHistory emptyHistories ['x']
    ∧ getUploadCount emptyHistories ('@' :: ['x']) = getUploadCount emptyHistories ['x']
    ∧ (markVideoUploaded emptyHistories ('@' :: ['x']) sampleVideoData none "2026-01-01").2
        = (markVideoUploaded emptyHistories ['x'] sampleVideoData none "2026-01-01").2
    ∧ isVideoUploaded
        (markVideoUploaded emptyHistories ('@' :: ['x']) sampleVideoData none "2026-01-01").2
        ['x'] sampleVideoData.id = true :=
  claim10_username_cleaning emptyHistories ['x'] "7301" sampleVideoData none "2026-01-01"
    (by decide)

/-! ## Claim 3 -/

/-- Claim C3, counterexample. With nothing used and `N = 7`,
`check_quota_available('videos.insert', 7)` answers true (five uploads are
affordable, so the partial-batch allowance applies), yet committing all 7
leaves `used = 11200 > limit` and `remaining` clamped to 0, which differs
from `limit - used = -1200`. -/
theorem claim3_counterexample :
    checkQuotaAvailable freshQuotaDay "videos.insert" 7 = true
    ∧ (trackApiUsage freshQuotaDay "videos.insert" 7).used = 11200
    ∧ ¬(((trackApiUsage freshQuotaDay "videos.insert" 7).remaining : ℤ)
        = (dailyQuotaLimit : ℤ) - (trackApiUsage freshQuotaDay "videos.insert" 7).used) := by
  have heff : effectiveRemaining freshQuotaDay = 9500 := by
    norm_num [effectiveRemaining, remainingQuota, reserveQuota, dailyQuotaLimit, freshQuotaDay]
  have hp : possibleUploads freshQuotaDay = 5 := by
    norm_num [possibleUploads, pyInt, heff, Int.floor_eq_iff]
  refine ⟨?_, ?_, ?_⟩
  · simp only [checkQuotaAvailable, QUOTA_COSTS]
    norm_num [heff, hp]
  · norm_num [trackApiUsage, QUOTA_COSTS, freshQuotaDay]
  · norm_num [trackApiUsage, QUOTA_COSTS, freshQuotaDay, dailyQuotaLimit]

/-- Claim C3, amended. After a successful `CanAfford("publish", N)` check,
`Commit("publish", N)` (i.e. `track_api_usage('videos.insert', N)`) leaves
`used = previousUsed + N * 1600` and `remaining = max(0, limit - used)` —
the remaining counter is clamped at zero, and equals `limit - used` only
while `used` has not exceeded the limit. -/
theorem claim3_commit_after_canafford (st : QuotaDay) (n : ℕ)
    (hcan : checkQuotaAvailable st "videos.insert" n = true) :
    (trackApiUsage st "videos.insert" n).used = st.used + n * 1600
    ∧ ((trackApiUsage st "videos.insert" n).remaining : ℤ)
      = max 0 ((dailyQuotaLimit : ℤ) - (trackApiUsage st "videos.insert" n).used) := by
  have hcost : (QUOTA_COSTS "videos.insert").getD 1 = 1600 := rfl
  constructor
  · simp [trackApiUsage, hcost, Nat.mul_comm]
  · simp only [trackApiUsage, hcost]
    rw [Int.toNat_eq_max, max_comm]

/-- Claim C3, witness: commit 2 publishes on a fresh day after a successful
affordability check. -/
theorem claim3_witness :
    (trackApiUsage freshQuotaDay "videos.insert" 2).used = freshQuotaDay.used + 2 * 1600
    ∧ ((trackApiUsage freshQuotaDay "videos.insert" 2).remaining : ℤ)
      = max 0 ((dailyQuotaLimit : ℤ) - (trackApiUsage freshQuotaDay "videos.insert" 2).used) :=
  claim3_commit_after_canafford freshQuotaDay 2 (by
    have heff : effectiveRemaining freshQuotaDay = 9500 := by
      norm_num [effectiveRemaining, remainingQuota, reserveQuota, dailyQuotaLimit, freshQuotaDay]
    simp only [checkQuotaAvailable, QUOTA_COSTS]
    norm_num [heff])

/-! ## Claim 9 -/

/-- The quota day of the spec's end-to-end scenario: 8500 of 10000 units
already used. -/
def scenarioQuotaDay : QuotaDay := ⟨8500, 1500, fun _ => (0, 0)⟩

/-- Claim C9. With `limit = 10000`, `used = 8500`, publish cost 1600 and the
5% reserve of 500: the effective remaining budget is 1000, the affordable
upload count is 0, and dispatching a batch of 3 items commits none — all 3
are rejected with "Quota exceeded", and the quota state is unchanged (no
budget commit; the dispatch path touches no ledger). -/
theorem claim9_exhausted_budget_rejects_all :
    effectiveRemaining scenarioQuotaDay = 1000
    ∧ possibleUploads scenarioQuotaDay = 0
    ∧ uploadImmediately scenarioQuotaDay ["clip1.mp4", "clip2.mp4", "clip3.mp4"]
        ["video one", "video two", "video three"] (fun _ => some "yt")
      = .ok (⟨[], [⟨"clip1.mp4", "video one", "Quota exceeded"⟩,
          ⟨"clip2.mp4", "video two", "Quota exceeded"⟩,
          ⟨"clip3.mp4", "video three", "Quota exceeded"⟩]⟩, scenarioQuotaDay) := by
  have heff : effectiveRemaining scenarioQuotaDay = 1000 := by
    norm_num [effectiveRemaining, remainingQuota, reserveQuota, dailyQuotaLimit, scenarioQuotaDay]
  have hp : possibleUploads scenarioQuotaDay = 0 := by
    norm_num [possibleUploads, pyInt, heff]
  have hcheck : checkQuotaAvailable scenarioQuotaDay "videos.insert" 3 = false := by
    simp only [checkQuotaAvailable, QUOTA_COSTS]
    norm_num [heff, hp]
  refine ⟨heff, hp, ?_⟩
  simp [uploadImmediately, hcheck, hp]

/-! ## Claim 2: supporting lemmas on the per-item quota gate -/

/-- Proof helper: the affordable publish count `⌊(9500 - used) / 1600⌋`
expressed in natural arithmetic. -/
def affordCount (used : ℕ) : ℕ := (9500 - used) / 1600

theorem effectiveRemaining_eq (st : QuotaDay) :
    effectiveRemaining st = 9500 - (st.used : ℚ) := by
  simp only [effectiveRemaining, remainingQuota, reserveQuota, dailyQuotaLimit]
  push_cast
  ring

theorem pyInt_of_nonneg {q : ℚ} (h : 0 ≤ q) : pyInt q = ⌊q⌋ := if_pos h

theorem pyInt_nonpos {q : ℚ} (h : q < 1) : pyInt q ≤ 0 := by
  unfold pyInt
  split
  · have : ⌊q⌋ < 1 := Int.floor_lt.mpr (by exact_mod_cast h)
    omega
  · rename_i hq
    have : (0 : ℤ) ≤ ⌊-q⌋ := Int.le_floor.mpr (by push_cast; linarith [not_le.mp hq])
    omega

theorem pyInt_pos_bounds {q : ℚ} {k : ℕ} (hk : pyInt q = (k : ℤ)) (hk0 : 0 < k) :
    0 ≤ q ∧ ⌊q⌋ = (k : ℤ) := by
  have hq : 0 ≤ q := by
    by_contra h
    have h1 : q < 1 := by linarith [not_le.mp h]
    have := pyInt_nonpos h1
    rw [hk] at this
    omega
  exact ⟨hq, by rw [← pyInt_of_nonneg hq, hk]⟩

theorem affordCount_pos_iff (u : ℕ) : 1 ≤ affordCount u ↔ u ≤ 7900 := by
  unfold affordCount
  rw [Nat.one_le_div_iff (by norm_num)]
  omega

theorem affordCount_after (u : ℕ) (h : u ≤ 7900) :
    affordCount (u + 1600) = affordCount u - 1 := by
  unfold affordCount
  have hsplit : 9500 - u = (9500 - (u + 1600)) + 1600 := by omega
  rw [hsplit, Nat.add_div_right _ (by norm_num)]
  omega

/-- Evaluation of `check_quota_available` on the `videos.insert` branch. -/
theorem checkInsert_eq (st : QuotaDay) (count : ℕ) :
    checkQuotaAvailable st "videos.insert" count
      = if ((1600 * count : ℕ) : ℚ) > effectiveRemaining st then
          decide (0 < possibleUploads st)
        else true := rfl

/-- The per-item gate of `upload_video`: `check_quota_available` with count 1
passes precisely while at most 7900 units are used (so that
`effective_remaining = 9500 - used` covers one more 1600-unit upload). -/
theorem checkOne_true (st : QuotaDay) (h : st.used ≤ 7900) :
    checkQuotaAvailable st "videos.insert" 1 = true := by
  rw [checkInsert_eq, if_neg]
  push_cast
  have : (st.used : ℚ) ≤ 7900 := by exact_mod_cast h
  rw [effectiveRemaining_eq]
  push_cast
  linarith

theorem checkOne_false (st : QuotaDay) (h : 7900 < st.used) :
    checkQuotaAvailable st "videos.insert" 1 = false := by
  have hlt : effectiveRemaining st / 1600 < 1 := by
    rw [effectiveRemaining_eq]
    have : (7900 : ℚ) < st.used := by exact_mod_cast h
    rw [div_lt_one (by norm_num)]
    linarith
  rw [checkInsert_eq, if_pos]
  · exact decide_eq_false (by
      simp only [possibleUploads]
      exact (pyInt_nonpos hlt).not_lt)
  · have : (7900 : ℚ) < st.used := by exact_mod_cast h
    rw [effectiveRemaining_eq]
    push_cast
    linarith

theorem uploadVideo_success (st : QuotaDay) (id : String) (h : st.used ≤ 7900) :
    uploadVideo st (some id) = (some id, trackApiUsage st "videos.insert" 1) := by
  simp [uploadVideo, checkOne_true st h]

theorem uploadVideo_gated (st : QuotaDay) (res : Option String) (h : 7900 < st.used) :
    uploadVideo st res = (none, st) := by
  simp [uploadVideo, checkOne_false st h]

theorem trackInsertOne_used (st : QuotaDay) :
    (trackApiUsage st "videos.insert" 1).used = st.used + 1600 := rfl

/-- Behaviour of the per-item loop of `_upload_immediately` when every
attempted external publish succeeds: exactly the affordable prefix commits
(each success consuming 1600 units shrinks the affordable count by one), the
rest is rejected with "Upload failed", and the budget grows by 1600 per
success. -/
theorem uploadLoop_spec (oracle : ℕ → Option String) (hor : ∀ j, (oracle j).isSome = true)
    (pairs : List (String × String)) :
    ∀ (i : ℕ) (st : QuotaDay),
    (uploadLoop oracle pairs i st).1.successful.map UploadSuccess.file
        = (pairs.map Prod.fst).take (affordCount st.used)
    ∧ (uploadLoop oracle pairs i st).1.failed.map UploadFailure.file
        = (pairs.map Prod.fst).drop (affordCount st.used)
    ∧ (∀ f ∈ (uploadLoop oracle pairs i st).1.failed, f.error = "Upload failed")
    ∧ (uploadLoop oracle pairs i st).2.used
        = st.used + 1600 * min (affordCount st.used) pairs.length := by
  induction pairs with
  | nil => intro i st; simp [uploadLoop]
  | cons p rest ih =>
    obtain ⟨file, data⟩ := p
    intro i st
    by_cases hgate : st.used ≤ 7900
    · obtain ⟨id, hid⟩ := Option.isSome_iff_exists.mp (hor i)
      have ha1 : 1 ≤ affordCount st.used := (affordCount_pos_iff st.used).mpr hgate
      obtain ⟨m, hm⟩ : ∃ m, affordCount st.used = m + 1 :=
        ⟨affordCount st.used - 1, by omega⟩
      have haft : affordCount (trackApiUsage st "videos.insert" 1).used = m := by
        rw [trackInsertOne_used, affordCount_after st.used hgate, hm]
        omega
      obtain ⟨ih1, ih2, ih3, ih4⟩ := ih (i + 1) (trackApiUsage st "videos.insert" 1)
      rw [haft] at ih1 ih2 ih4
      simp only [uploadLoop, hid, uploadVideo_success st id hgate]
      refine ⟨?_, ?_, ih3, ?_⟩
      · simp [hm, ih1]
      · simp [hm, ih2]
      · simp only [ih4, trackInsertOne_used, hm, List.length_cons, Nat.succ_min_succ,
          Nat.succ_eq_add_one]
        ring
    · have hafford0 : affordCount st.used = 0 := by
        have := (affordCount_pos_iff st.used).not
        omega
      obtain ⟨ih1, ih2, ih3, ih4⟩ := ih (i + 1) st
      rw [hafford0] at ih1 ih2 ih4
      simp only [uploadLoop, uploadVideo_gated st (oracle i) (not_le.mp hgate)]
      refine ⟨?_, ?_, ?_, ?_⟩
      · simp [hafford0, ih1]
      · simp [hafford0, ih2]
      · intro f hf
        simp only [List.mem_cons] at hf
        rcases hf with hf | hf
        · rw [hf]
        · exact ih3 f hf
      · simp [hafford0, ih4]

/-- The batch-level `check_quota_available('videos.insert', n)` answers true
whenever at least one upload is affordable (its then-branch returns
`possible_uploads > 0` and its else-branch returns true). -/
theorem checkBatch_true (st : QuotaDay) (n k : ℕ)
    (hk : possibleUploads st = (k : ℤ)) (hk0 : 0 < k) :
    checkQuotaAvailable st "videos.insert" n = true := by
  rw [checkInsert_eq]
  split
  · simp only [hk, decide_eq_true_eq]
    exact_mod_cast hk0
  · rfl

theorem affordCount_eq_of_possibleUploads (st : QuotaDay) (k : ℕ)
    (hk : possibleUploads st = (k : ℤ)) (hk0 : 0 < k) :
    affordCount st.used = k := by
  obtain ⟨hq0, hfl⟩ := pyInt_pos_bounds (q := effectiveRemaining st / 1600) hk hk0
  have hone : (1 : ℚ) ≤ effectiveRemaining st / 1600 := by
    have h1 : (1 : ℤ) ≤ ⌊effectiveRemaining st / 1600⌋ := by
      rw [hfl]; exact_mod_cast hk0
    exact_mod_cast Int.le_floor.mp h1
  have hused : st.used ≤ 9500 := by
    by_contra h
    push_neg at h
    have h1 : (9500 : ℚ) < st.used := by exact_mod_cast h
    have h2 : effectiveRemaining st < 0 := by rw [effectiveRemaining_eq]; linarith
    have h3 : effectiveRemaining st / 1600 < 1 := by
      rw [div_lt_one (by norm_num)]; linarith
    linarith
  have hcast : effectiveRemaining st = ((9500 - st.used : ℕ) : ℚ) := by
    rw [effectiveRemaining_eq, Nat.cast_sub hused]
    norm_num
  have : ⌊effectiveRemaining st / 1600⌋ = (affordCount st.used : ℤ) := by
    rw [hcast]
    have h1600 : ((1600 : ℕ) : ℚ) = (1600 : ℚ) := by norm_num
    rw [← h1600, Rat.floor_natCast_div_natCast]
    simp [affordCount]
  rw [this] at hfl
  exact_mod_cast hfl

/-! ## Claim 2 -/

/-- Claim C2. When the batch's total publish cost exceeds the affordable
budget but `k = ⌊effective_remaining / 1600⌋` units are affordable
(`0 < k < n`) and every attempted external publish succeeds, dispatching the
batch commits exactly the first `k` items in input order, rejects the
remaining `n - k` with "Upload failed", and consumes exactly `1600 * k`
budget units — a graceful partial batch, not an outright failure. (The code
reaches this outcome through the per-item quota re-check inside
`upload_video`, not through the prefix-truncation branch, which is
unreachable in the single-writer model.) -/
theorem claim2_partial_batch_commits_affordable_prefix (st : QuotaDay)
    (videoFiles videoDataList : List String) (oracle : ℕ → Option String) (n k : ℕ)
    (hf : videoFiles.length = n) (hd : videoDataList.length = n)
    (hk : possibleUploads st = (k : ℤ)) (hk0 : 0 < k) (hkn : k < n)
    (hor : ∀ j, (oracle j).isSome = true) :
    ∃ results stFinal,
      uploadImmediately st videoFiles videoDataList oracle = .ok (results, stFinal)
      ∧ results.successful.map UploadSuccess.file = videoFiles.take k
      ∧ results.failed.map UploadFailure.file = videoFiles.drop k
      ∧ (∀ f ∈ results.failed, f.error = "Upload failed")
      ∧ stFinal.used = st.used + 1600 * k := by
  have hck : checkQuotaAvailable st "videos.insert" videoFiles.length = true :=
    checkBatch_true st videoFiles.length k hk hk0
  have hlen : videoFiles.length = videoDataList.length := by rw [hf, hd]
  have hmapfst : (videoFiles.zip videoDataList).map Prod.fst = videoFiles :=
    List.map_fst_zip videoFiles videoDataList (le_of_eq hlen)
  have haff : affordCount st.used = k := affordCount_eq_of_possibleUploads st k hk hk0
  obtain ⟨h1, h2, h3, h4⟩ := uploadLoop_spec oracle hor (videoFiles.zip videoDataList) 0 st
  rw [haff, hmapfst] at h1 h2
  rw [haff] at h4
  have hminlen : min k (videoFiles.zip videoDataList).length = k := by
    rw [List.length_zip, hf, hd]
    omega
  rw [hminlen] at h4
  refine ⟨(uploadLoop oracle (videoFiles.zip videoDataList) 0 st).1,
    (uploadLoop oracle (videoFiles.zip videoDataList) 0 st).2, ?_, h1, h2, h3, h4⟩
  simp only [uploadImmediately]
  rw [if_neg (by simp [hlen]), if_pos hck]

/-- Claim C2, witness: a fresh day affords `k = ⌊9500 / 1600⌋ = 5` of a
6-item batch; the first five files commit, the sixth is rejected, and 8000
units are consumed. -/
theorem claim2_witness :
    ∃ results stFinal,
      uploadImmediately freshQuotaDay ["a1", "a2", "a3", "a4", "a5", "a6"]
          ["c1", "c2", "c3", "c4", "c5", "c6"] (fun _ => some "yt")
        = .ok (results, stFinal)
      ∧ results.successful.map UploadSuccess.file
          = (["a1", "a2", "a3", "a4", "a5", "a6"] : List String).take 5
      ∧ results.failed.map UploadFailure.file
          = (["a1", "a2", "a3", "a4", "a5", "a6"] : List String).drop 5
      ∧ (∀ f ∈ results.failed, f.error = "Upload failed")
      ∧ stFinal.used = freshQuotaDay.used + 1600 * 5 :=
  claim2_partial_batch_commits_affordable_prefix freshQuotaDay
    ["a1", "a2", "a3", "a4", "a5", "a6"] ["c1", "c2", "c3", "c4", "c5", "c6"]
    (fun _ => some "yt") 6 5 rfl rfl
    (by
      have heff : effectiveRemaining freshQuotaDay = 9500 := by
        norm_num [effectiveRemaining, remainingQuota, reserveQuota, dailyQuotaLimit,
          freshQuotaDay]
      norm_num [possibleUploads, pyInt, heff, Int.floor_eq_iff])
    (by norm_num) (by norm_num) (fun j => rfl)

/-! ## Scorer lemmas: the three regimes of `calculate_engagement_score` -/

theorem score_degenerate_some (v : Video) (rand : ℚ) (t : ℤ)
    (hz : v.views = 0 ∧ v.likes = 0 ∧ v.comments = 0 ∧ v.shares = 0)
    (hct : v.createTime = some t) :
    calculateEngagementScore v rand = ((min 5 (max 0 ((t : ℚ) / 1000000000)) : ℚ) : ℝ) := by
  simp only [calculateEngagementScore, if_pos hz, hct]

theorem score_degenerate_none (v : Video) (rand : ℚ)
    (hz : v.views = 0 ∧ v.likes = 0 ∧ v.comments = 0 ∧ v.shares = 0)
    (hct : v.createTime = none) :
    calculateEngagementScore v rand = (rand : ℝ) := by
  simp only [calculateEngagementScore, if_pos hz, hct]

theorem score_zero_views (v : Video) (rand : ℚ) (hv : v.views = 0)
    (hnz : ¬(v.likes = 0 ∧ v.comments = 0 ∧ v.shares = 0)) :
    calculateEngagementScore v rand = 0 := by
  simp only [calculateEngagementScore]
  rw [if_neg (fun h => hnz ⟨h.2.1, h.2.2.1, h.2.2.2⟩), if_pos hv]

theorem score_normal (v : Video) (rand : ℚ) (hv : 0 < v.views) :
    calculateEngagementScore v rand
      = 0.4 * Real.logb 10 ((v.views : ℝ) + 1)
        + 0.6 * (((v.likes + v.comments + v.shares : ℕ) : ℝ) / (v.views : ℝ)) * 10 := by
  have h1 : ¬(v.views = 0 ∧ v.likes = 0 ∧ v.comments = 0 ∧ v.shares = 0) :=
    fun h => absurd h.1 (by omega)
  have h2 : ¬(v.views = 0) := by omega
  simp only [calculateEngagementScore, if_neg h1, if_neg h2]

theorem score_nonneg_of_pos (v : Video) (rand : ℚ) (hv : 0 < v.views) :
    0 ≤ calculateEngagementScore v rand := by
  rw [score_normal v rand hv]
  have hlog : 0 ≤ Real.logb 10 ((v.views : ℝ) + 1) :=
    Real.logb_nonneg (by norm_num) (by
      have : (0 : ℝ) ≤ (v.views : ℝ) := by positivity
      linarith)
  have hrate : (0 : ℝ) ≤ ((v.likes + v.comments + v.shares : ℕ) : ℝ) / (v.views : ℝ) :=
    div_nonneg (by positivity) (by positivity)
  nlinarith

/-! ## Claim 4 -/

/-- The video of the counterexample: zero views but five likes. -/
def zeroViewsVideo : Video :=
  { desc := "", duration := 10, views := 0, likes := 5, comments := 0, shares := 0,
    createTime := some 0 }

/-- Claim C4, counterexample. For an item with `views = 0` and `likes = 5`
(so at least one counter is positive), the code returns `0`, while the
claimed formula with the view divisor floored at 1 evaluates to `30`. -/
theorem claim4_counterexample :
    0 < zeroViewsVideo.likes
    ∧ calculateEngagementScore zeroViewsVideo 0 = 0
    ∧ specNormalScore zeroViewsVideo = 30
    ∧ calculateEngagementScore zeroViewsVideo 0 ≠ specNormalScore zeroViewsVideo := by
  have hscore : calculateEngagementScore zeroViewsVideo 0 = 0 :=
    score_zero_views zeroViewsVideo 0 rfl (by simp [zeroViewsVideo])
  have hspec : specNormalScore zeroViewsVideo = 30 := by
    simp only [specNormalScore, zeroViewsVideo]
    norm_num [Real.logb_one]
  exact ⟨by norm_num [zeroViewsVideo], hscore, hspec, by rw [hscore, hspec]; norm_num⟩

/-- Claim C4, amended. The scoring operation applies the normal-regime
formula only when `views` is positive (where the divisor `max(views, 1)`
equals `views`); for an item with zero views but at least one positive
engagement counter it returns `0` instead of the formula's value. -/
theorem claim4_score_normal_regime (v : Video) (rand : ℚ) :
    (0 < v.views → calculateEngagementScore v rand = specNormalScore v)
    ∧ (v.views = 0 → 0 < v.likes + v.comments + v.shares
        → calculateEngagementScore v rand = 0) := by
  constructor
  · intro hv
    rw [score_normal v rand hv]
    simp only [specNormalScore]
    rw [max_eq_left (by exact_mod_cast hv : (1 : ℝ) ≤ (v.views : ℝ))]
  · intro hv hnz
    exact score_zero_views v rand hv (fun h => by omega)

/-! ## Claim 7 -/

/-- Claim C7. For an item with all four counters zero, the score is the
clamp of `createTime / 1e9` into `[0, 5]` — a value derived solely from the
creation timestamp — or, when `int(createTime)` raises, the uniform draw
from `[0.1, 1.0]`; the normal-regime formula is never applied. -/
theorem claim7_degenerate_score (v : Video) (rand : ℚ)
    (hlo : 1 / 10 ≤ rand) (hhi : rand ≤ 1)
    (hz : v.views = 0 ∧ v.likes = 0 ∧ v.comments = 0 ∧ v.shares = 0) :
    (∃ t, v.createTime = some t
        ∧ calculateEngagementScore v rand = ((min 5 (max 0 ((t : ℚ) / 1000000000)) : ℚ) : ℝ)
        ∧ 0 ≤ calculateEngagementScore v rand ∧ calculateEngagementScore v rand ≤ 5)
    ∨ (v.createTime = none
        ∧ calculateEngagementScore v rand = (rand : ℝ)
        ∧ (1 / 10 : ℝ) ≤ calculateEngagementScore v rand
        ∧ calculateEngagementScore v rand ≤ 1) := by
  cases hct : v.createTime with
  | some t =>
    left
    have hs := score_degenerate_some v rand t hz hct
    refine ⟨t, rfl, hs, ?_, ?_⟩
    · rw [hs]
      have hq : (0 : ℚ) ≤ min 5 (max 0 ((t : ℚ) / 1000000000)) :=
        le_min (by norm_num) (le_max_left 0 _)
      exact_mod_cast hq
    · rw [hs]
      have hq : min 5 (max 0 ((t : ℚ) / 1000000000)) ≤ 5 := min_le_left _ _
      exact_mod_cast hq
  | none =>
    right
    have hs := score_degenerate_none v rand hz hct
    refine ⟨rfl, hs, ?_, ?_⟩
    · rw [hs]
      have h := (Rat.cast_le (K := ℝ)).mpr hlo
      push_cast at h
      linarith
    · rw [hs]
      have h := (Rat.cast_le (K := ℝ)).mpr hhi
      push_cast at h
      linarith

/-- A just-fetched item with no engagement data and a usable creation
timestamp. -/
def freshVideo : Video :=
  { desc := "", duration := 10, views := 0, likes := 0, comments := 0, shares := 0,
    createTime := some 2000000000 }

/-- Claim C7, witness: the degenerate regime on `freshVideo` with the draw
`rand = 1/2`. -/
theorem claim7_witness :
    (∃ t, freshVideo.createTime = some t
        ∧ calculateEngagementScore freshVideo (1 / 2)
            = ((min 5 (max 0 ((t : ℚ) / 1000000000)) : ℚ) : ℝ)
        ∧ 0 ≤ calculateEngagementScore freshVideo (1 / 2)
        ∧ calculateEngagementScore freshVideo (1 / 2) ≤ 5)
    ∨ (freshVideo.createTime = none
        ∧ calculateEngagementScore freshVideo (1 / 2) = ((1 / 2 : ℚ) : ℝ)
        ∧ (1 / 10 : ℝ) ≤ calculateEngagementScore freshVideo (1 / 2)
        ∧ calculateEngagementScore freshVideo (1 / 2) ≤ 1) :=
  claim7_degenerate_score freshVideo (1 / 2) (by norm_num) (by norm_num)
    ⟨rfl, rfl, rfl, rfl⟩

/-! ## Claim 8 -/

theorem specEngagementRate_cast (v : Video) (hv : 0 < v.views) :
    ((specEngagementRate v : ℚ) : ℝ)
      = ((v.likes + v.comments + v.shares : ℕ) : ℝ) / (v.views : ℝ) := by
  simp only [specEngagementRate]
  rw [max_eq_left hv]
  push_cast
  ring

/-- Claim C8. For non-degenerate items (at least one counter positive), the
score is non-decreasing in `views` when the spec's engagement rate
`(likes + comments + shares) / max(views, 1)` is held fixed, and
non-decreasing in `likes + comments + shares` when `views` is held fixed. -/
theorem claim8_score_monotone (v₁ v₂ : Video) (r₁ r₂ : ℚ)
    (h₁ : 0 < v₁.views ∨ 0 < v₁.likes ∨ 0 < v₁.comments ∨ 0 < v₁.shares)
    (h₂ : 0 < v₂.views ∨ 0 < v₂.likes ∨ 0 < v₂.comments ∨ 0 < v₂.shares) :
    (v₁.views ≤ v₂.views → specEngagementRate v₁ = specEngagementRate v₂ →
      calculateEngagementScore v₁ r₁ ≤ calculateEngagementScore v₂ r₂)
    ∧ (v₁.views = v₂.views
      → v₁.likes + v₁.comments + v₁.shares ≤ v₂.likes + v₂.comments + v₂.shares
      → calculateEngagementScore v₁ r₁ ≤ calculateEngagementScore v₂ r₂) := by
  constructor
  · intro hviews hrate
    by_cases hv1 : v₁.views = 0
    · have hs1 : calculateEngagementScore v₁ r₁ = 0 :=
        score_zero_views v₁ r₁ hv1 (fun h => by rcases h₁ with h' | h' | h' | h' <;> omega)
      by_cases hv2 : v₂.views = 0
      · have hs2 : calculateEngagementScore v₂ r₂ = 0 :=
          score_zero_views v₂ r₂ hv2 (fun h => by rcases h₂ with h' | h' | h' | h' <;> omega)
        rw [hs1, hs2]
      · rw [hs1]
        exact score_nonneg_of_pos v₂ r₂ (Nat.pos_of_ne_zero hv2)
    · have hv1' : 0 < v₁.views := Nat.pos_of_ne_zero hv1
      have hv2' : 0 < v₂.views := lt_of_lt_of_le hv1' hviews
      rw [score_normal v₁ r₁ hv1', score_normal v₂ r₂ hv2']
      have hrr : ((v₁.likes + v₁.comments + v₁.shares : ℕ) : ℝ) / (v₁.views : ℝ)
          = ((v₂.likes + v₂.comments + v₂.shares : ℕ) : ℝ) / (v₂.views : ℝ) := by
        rw [← specEngagementRate_cast v₁ hv1', ← specEngagementRate_cast v₂ hv2', hrate]
      rw [← hrr]
      have hlog : Real.logb 10 ((v₁.views : ℝ) + 1) ≤ Real.logb 10 ((v₂.views : ℝ) + 1) := by
        apply Real.logb_le_logb_of_le (by norm_num) (by positivity)
        have : (v₁.views : ℝ) ≤ (v₂.views : ℝ) := by exact_mod_cast hviews
        linarith
      linarith
  · intro hviews hsum
    by_cases hv1 : v₁.views = 0
    · have hv2 : v₂.views = 0 := by omega
      rw [score_zero_views v₁ r₁ hv1 (fun h => by rcases h₁ with h' | h' | h' | h' <;> omega),
        score_zero_views v₂ r₂ hv2 (fun h => by rcases h₂ with h' | h' | h' | h' <;> omega)]
    · have hv1' : 0 < v₁.views := Nat.pos_of_ne_zero hv1
      have hv2' : 0 < v₂.views := by omega
      rw [score_normal v₁ r₁ hv1', score_normal v₂ r₂ hv2', hviews]
      have hcast : ((v₁.likes + v₁.comments + v₁.shares : ℕ) : ℝ)
          ≤ ((v₂.likes + v₂.comments + v₂.shares : ℕ) : ℝ) := by exact_mod_cast hsum
      have hdiv : ((v₁.likes + v₁.comments + v₁.shares : ℕ) : ℝ) / (v₂.views : ℝ)
          ≤ ((v₂.likes + v₂.comments + v₂.shares : ℕ) : ℝ) / (v₂.views : ℝ) := by
        gcongr
      linarith

/-- Two non-degenerate items with equal views and increasing likes. -/
def rankedVideoA : Video :=
  { desc := "", duration := 10, views := 10, likes := 1, comments := 0, shares := 0,
    createTime := some 0 }

/-- See `rankedVideoA`. -/
def rankedVideoB : Video :=
  { desc := "", duration := 10, views := 10, likes := 2, comments := 0, shares := 0,
    createTime := some 0 }

/-- Claim C8, witness: monotonicity applied to two concrete items with ten
views and one resp. two likes. -/
theorem claim8_witness :
    (rankedVideoA.views ≤ rankedVideoB.views
      → specEngagementRate rankedVideoA = specEngagementRate rankedVideoB →
      calculateEngagementScore rankedVideoA 0 ≤ calculateEngagementScore rankedVideoB 0)
    ∧ (rankedVideoA.views = rankedVideoB.views
      → rankedVideoA.likes + rankedVideoA.comments + rankedVideoA.shares
          ≤ rankedVideoB.likes + rankedVideoB.comments + rankedVideoB.shares
      → calculateEngagementScore rankedVideoA 0 ≤ calculateEngagementScore rankedVideoB 0) :=
  claim8_score_monotone rankedVideoA rankedVideoB 0 0
    (Or.inl (by norm_num [rankedVideoA])) (Or.inl (by norm_num [rankedVideoB]))

/-! ## Claim 5 -/

theorem positiveViewCounts_ne_nil {videos : List Video} (h : ∃ v ∈ videos, 0 < v.views) :
    positiveViewCounts videos ≠ [] := by
  obtain ⟨v, hv, hpos⟩ := h
  intro hnil
  have hmem : v.views ∈ positiveViewCounts videos :=
    List.mem_filter.mpr ⟨List.mem_map.mpr ⟨v, hv, rfl⟩, by simpa using hpos⟩
  rw [hnil] at hmem
  exact absurd hmem (List.not_mem_nil _)

/-- Claim C5. Whenever the threshold calculator classifies the channel (some
view count is positive), the admission floor lies between the class's
minimum bound (3000, 8000 or 15000) and 500000. -/
theorem claim5_threshold_bounds (videos : List Video) (h : ∃ v ∈ videos, 0 < v.views) :
    minBoundOf (channelSizeOf (avgViewsOf videos)) ≤ calculateDynamicViewThreshold videos
    ∧ calculateDynamicViewThreshold videos ≤ 500000 := by
  have hne : videos ≠ [] := by
    obtain ⟨v, hv, _⟩ := h
    intro hnil
    rw [hnil] at hv
    exact absurd hv (List.not_mem_nil v)
  have hposne : positiveViewCounts videos ≠ [] := positiveViewCounts_ne_nil h
  have hval : calculateDynamicViewThreshold videos
      = (max (minBoundOf (channelSizeOf (avgViewsOf videos)) : ℤ)
          (min (rawThresholdOf videos) (maxBound : ℤ))).toNat := by
    simp only [calculateDynamicViewThreshold, if_neg hne, if_neg hposne]
  have hmb : minBoundOf (channelSizeOf (avgViewsOf videos)) ≤ 500000 := by
    rcases channelSizeOf (avgViewsOf videos) with _ | _ | _ <;> norm_num [minBoundOf]
  rw [hval]
  constructor
  · have h0 : (0 : ℤ) ≤ max (minBoundOf (channelSizeOf (avgViewsOf videos)) : ℤ)
        (min (rawThresholdOf videos) (maxBound : ℤ)) :=
      le_trans (Int.natCast_nonneg _) (le_max_left _ _)
    exact (Int.le_toNat h0).mpr (le_max_left _ _)
  · apply Int.toNat_le.mpr
    apply max_le
    · exact_mod_cast hmb
    · calc min (rawThresholdOf videos) (maxBound : ℤ) ≤ (maxBound : ℤ) := min_le_right _ _
        _ = (500000 : ℤ) := by norm_num [maxBound]

/-- A small channel's only recent item: 5000 views. -/
def smallChannelVideo : Video :=
  { desc := "", duration := 10, views := 5000, likes := 50, comments := 5, shares := 1,
    createTime := some 0 }

/-- Claim C5, witness: the bounds at the one-item list `[smallChannelVideo]`. -/
theorem claim5_witness :
    minBoundOf (channelSizeOf (avgViewsOf [smallChannelVideo]))
      ≤ calculateDynamicViewThreshold [smallChannelVideo]
    ∧ calculateDynamicViewThreshold [smallChannelVideo] ≤ 500000 :=
  claim5_threshold_bounds [smallChannelVideo]
    ⟨smallChannelVideo, List.mem_singleton.mpr rfl, by norm_num [smallChannelVideo]⟩

/-! ## Claim 6 -/

theorem mem_filterByContentPolicy {videos : List Video} {channelName : String} {rand : ℚ}
    {v : Video} (hv : v ∈ filterByContentPolicy videos channelName rand) :
    CONTENT_FILTERS.minDuration ≤ v.duration ∧ v.duration ≤ CONTENT_FILTERS.maxDuration := by
  simp only [filterByContentPolicy] at hv
  split at hv
  · exact absurd hv (List.not_mem_nil v)
  · rw [List.mem_filter] at hv
    have hp := hv.2
    simp only [Bool.and_eq_true, decide_eq_true_eq] at hp
    have hdur := hp.1.1.1
    push_neg at hdur
    exact hdur

theorem mem_rankVideos {videos : List Video} {rand : ℚ} {v : Video}
    (hv : v ∈ rankVideos videos rand) : v ∈ videos := by
  simp only [rankVideos, List.mem_mergeSort] at hv
  exact hv

theorem mem_sortByCreateTimeDesc {videos : List Video} {v : Video}
    (hv : v ∈ sortByCreateTimeDesc videos) : v ∈ videos := by
  simp only [sortByCreateTimeDesc, List.mem_mergeSort] at hv
  exact hv

/-- The four possible outcomes of the fallback cascade: a strict pool equal
to the content-policy filter, a duration + recency pool whose members all lie
in the 3-60 second window, or one of the two unfiltered stages. -/
theorem selectPool_cases (videos : List Video) (channelName : String) (topN : ℕ) (rand : ℚ) :
    ((selectPool videos channelName topN rand).2 = SelectStage.strict
      ∧ (selectPool videos channelName topN rand).1 = filterByContentPolicy videos channelName rand)
    ∨ ((selectPool videos channelName topN rand).2 = SelectStage.durationRecency
      ∧ ∀ v ∈ (selectPool videos channelName topN rand).1,
          3 ≤ v.duration ∧ v.duration ≤ 60)
    ∨ (selectPool videos channelName topN rand).2 = SelectStage.recencyOnly
    ∨ (selectPool videos channelName topN rand).2 = SelectStage.lastResort := by
  simp only [selectPool]
  split
  · split
    · split
      · right; right; left; rfl
      · right; right; right; rfl
    · split
      · right; left
        refine ⟨rfl, fun v hv => ?_⟩
        have hv' := mem_sortByCreateTimeDesc (List.mem_of_mem_take hv)
        rw [List.mem_filter] at hv'
        simpa using hv'.2
      · right; right; right; rfl
  · left; exact ⟨rfl, rfl⟩

/-- Claim C6. The selection operation returns at most `topN` items, and as
long as the cascade did not reach an unfiltered stage (recency-only or last
resort — both observable in the returned stage, as in the code's logs),
every returned item satisfies the configured duration window. -/
theorem claim6_select_bounds (videos : List Video) (channelName : String) (topN : ℕ)
    (rand : ℚ) :
    (selectTopVideos videos channelName topN rand).selected.length ≤ topN
    ∧ (((selectTopVideos videos channelName topN rand).stage = SelectStage.strict
        ∨ (selectTopVideos videos channelName topN rand).stage = SelectStage.durationRecency)
      → ∀ v ∈ (selectTopVideos videos channelName topN rand).selected,
          CONTENT_FILTERS.minDuration ≤ v.duration
          ∧ v.duration ≤ CONTENT_FILTERS.maxDuration) := by
  by_cases hnil : videos = []
  · constructor
    · simp [selectTopVideos, hnil]
    · intro _ v hv
      simp [selectTopVideos, hnil] at hv
  · have hsel : selectTopVideos videos channelName topN rand
        = ⟨(rankVideos (selectPool videos channelName topN rand).1 rand).take topN,
          (selectPool videos channelName topN rand).2⟩ := by
      simp [selectTopVideos, hnil]
    rw [hsel]
    constructor
    · show ((rankVideos (selectPool videos channelName topN rand).1 rand).take topN).length ≤ topN
      rw [List.length_take]
      exact min_le_left _ _
    · intro hstage v hv
      have hvpool : v ∈ (selectPool videos channelName topN rand).1 :=
        mem_rankVideos (List.mem_of_mem_take hv)
      rcases selectPool_cases videos channelName topN rand with ⟨hs, hp⟩ | ⟨hs, hp⟩ | hs | hs
      · rw [hp] at hvpool
        exact mem_filterByContentPolicy hvpool
      · exact hp v hvpool
      · rw [hs] at hstage
        rcases hstage with h | h <;> simp at h
      · rw [hs] at hstage
        rcases hstage with h | h <;> simp at h

end ShortsSync
